import Mathlib

/-!
Verification development for the mercagasto-batch receipt pipeline.

The definitions below are a shallow embedding of the Python sources:
  - `src/mercagasto/processors/product_matcher.py` (ProductMatcher and MatchResult),
  - `src/mercagasto/parsers/base.py` and `src/mercagasto/parsers/mercadona.py`,
  - `src/mercagasto/models/ticket.py` (Product, TicketData),
  - `src/mercagasto/storage/postgresql.py` (validate_ticket).

Modelling conventions:
  - Python floats and SQL numerics are modelled as exact rationals (the decimal
    values the code manipulates; binary-float rounding is not modelled, and no
    statement below depends on it).
  - Python exceptions are modelled with `Except String`: a function body that can
    raise is given as an `...Body` definition returning `Except String MatchResult`,
    and the `try/except Exception` wrapper present in each matcher tier is `runTier`.
  - The database boundary (psycopg2 connection + catalog table) is the `Catalog`
    type: either an in-memory snapshot of `mercadona_productos` rows joined with
    their category names, or an I/O failure that every query against it raises.
  - `difflib.SequenceMatcher(None, a, b).ratio()` is standard-library code outside
    this repository; it is modelled as an explicit parameter `sim : String → String → ℚ`
    of the fuzzy tier, which is how the matcher consumes it (a black-box similarity score).
  - Python's `\w` character class is modelled as ASCII alphanumeric or underscore.
-/

namespace Mercagasto

/-! ## String primitives shared by the embeddings -/

/-- Python `str.strip()` on the underlying character list. -/
def pyStripData (l : List Char) : List Char :=
  ((l.dropWhile Char.isWhitespace).reverse.dropWhile Char.isWhitespace).reverse

/-- Python `str.strip()`. -/
def pyStrip (s : String) : String := ⟨pyStripData s.data⟩

/-- Python `str.lower()` (ASCII case mapping). -/
def lowerStr (s : String) : String := ⟨s.data.map Char.toLower⟩

/-- SQL `TRIM(x)`: removes leading and trailing space characters only. -/
def sqlTrimData (l : List Char) : List Char :=
  ((l.dropWhile (· = ' ')).reverse.dropWhile (· = ' ')).reverse

/-- SQL `LOWER(TRIM(x))`, the normalization the exact tier applies to the catalog side. -/
def sqlLowerTrim (s : String) : String := ⟨(sqlTrimData s.data).map Char.toLower⟩

/-- Python `str.split()` (split on whitespace runs, dropping empty fields):
accumulator-based scan over the character list. -/
def splitWsAux : List Char → List Char → List String
  | acc, [] => if acc.isEmpty then [] else [⟨acc.reverse⟩]
  | acc, c :: rest =>
    if c.isWhitespace then
      if acc.isEmpty then splitWsAux [] rest
      else ⟨acc.reverse⟩ :: splitWsAux [] rest
    else splitWsAux (c :: acc) rest

/-- Python `str.split()` with no arguments. -/
def splitWs (s : String) : List String := splitWsAux [] s.data

/-- Substring test on character lists (Python `in`, SQL `LIKE '%pat%'`). -/
def containsData : List Char → List Char → Bool
  | [], pat => pat.isEmpty
  | l@(_ :: rest), pat => pat.isPrefixOf l || containsData rest pat

/-- Python `pat in s` / SQL `s LIKE '%pat%'` (no wildcard characters occur in
the patterns the code builds: keyword-tier words are cleaned first). -/
def strContains (s pat : String) : Bool := containsData s.data pat.data

/-- One step of `re.sub(r'\s+', ' ', s)`: each whitespace run becomes one space.
The boolean records whether the previous character was part of a whitespace run. -/
def collapseWsAux : Bool → List Char → List Char
  | _, [] => []
  | prevWs, c :: rest =>
    if c.isWhitespace then
      if prevWs then collapseWsAux true rest
      else ' ' :: collapseWsAux true rest
    else c :: collapseWsAux false rest

/-- Python word character for `re.sub(r'[^\w\s\d]', '', s)`: kept characters are
word characters (alphanumeric or underscore) and whitespace. -/
def pyWordChar (c : Char) : Bool := c.isAlphanum || c = '_' || c.isWhitespace

/-- Embeds `ProductMatcher._clean_product_name`: lower-case and strip, remove every
character that is not a word character or whitespace, collapse whitespace runs. -/
def cleanProductName (name : String) : String :=
  if name = "" then ""
  else
    let c1 := pyStrip (lowerStr name)
    let c2 : String := ⟨c1.data.filter pyWordChar⟩
    ⟨collapseWsAux false c2.data⟩

/-- Rendering of the `:.2f` format used in diagnostic strings (two decimal places;
the embedding rounds half up, a detail no statement below depends on). -/
def fmt2 (q : ℚ) : String :=
  let m : ℤ := ((|q| * 100 + 1/2 : ℚ)).floor
  let ip := m / 100
  let fp := (m % 100).toNat
  (if q < 0 then "-" else "") ++ toString ip ++ "." ++ (if fp < 10 then "0" else "") ++ toString fp

/-! ## Category matcher (`product_matcher.py`) -/

/-- One row of the catalog join used by every tier:
`mercadona_productos` joined with `categorias` and left-joined with `subcategorias`. -/
structure CatalogRow where
  categoria_id : Int
  subcategoria_id : Option Int
  categoria_nombre : String
  subcategoria_nombre : Option String
  display_name : Option String
  unit_price : Option ℚ
deriving DecidableEq

/-- The storage boundary: a catalog snapshot, or an I/O failure that any query
raises (psycopg2 raising on connect/execute). -/
inductive Catalog where
  | ok (rows : List CatalogRow)
  | ioError (msg : String)
deriving DecidableEq

/-- Fields of the `MatchResult` dataclass. -/
structure MatchResult where
  categoria_id : Option Int
  subcategoria_id : Option Int
  categoria_nombre : Option String
  subcategoria_nombre : Option String
  confidence : ℚ
  match_type : String
  match_details : Option String
deriving DecidableEq

/-- Value of `MatchResult(categoria_id=None, subcategoria_id=None)` with the dataclass
defaults: confidence 0.0 and match_type 'none'. Returned by a tier when it finds
nothing or when its `except Exception` clause fires. -/
def emptyMatch : MatchResult := ⟨none, none, none, none, 0, "none", none⟩

/-- Confidence thresholds set in `ProductMatcher.__init__`. -/
def EXACT_MATCH_THRESHOLD : ℚ := 1

/-- See `EXACT_MATCH_THRESHOLD`. -/
def FUZZY_MATCH_THRESHOLD : ℚ := 8/10

/-- See `EXACT_MATCH_THRESHOLD`. -/
def KEYWORD_MATCH_THRESHOLD : ℚ := 6/10

/-- See `EXACT_MATCH_THRESHOLD`. -/
def PRICE_MATCH_THRESHOLD : ℚ := 7/10

/-- The `try ... except Exception: logger.error(...)` wrapper around each tier
body: an uncaught body exception becomes the empty result. -/
def runTier (body : Except String MatchResult) : MatchResult :=
  match body with
  | .ok r => r
  | .error _ => emptyMatch

/-- Body of `ProductMatcher._exact_match` (inside its try): SQL
`WHERE LOWER(TRIM(mp.display_name)) = %s LIMIT 1` with the cleaned query bound;
a NULL display_name never compares equal. The `LIMIT 1` row without `ORDER BY`
is modelled as the first matching row in snapshot order. -/
def exactMatchBody (db : Catalog) (product_name : String) : Except String MatchResult :=
  match db with
  | .ioError msg => .error msg
  | .ok rows =>
    match rows.find? (fun row =>
        match row.display_name with
        | some dn => sqlLowerTrim dn == product_name
        | none => false) with
    | some row =>
      .ok ⟨some row.categoria_id, row.subcategoria_id, some row.categoria_nombre,
           row.subcategoria_nombre, 1, "exact", some "Coincidencia exacta por nombre"⟩
    | none => .ok emptyMatch

/-- Embeds `ProductMatcher._exact_match` with its exception handler. -/
def exactMatch (db : Catalog) (product_name : String) : MatchResult :=
  runTier (exactMatchBody db product_name)

/-- The fold in `_fuzzy_match`: strict improvement (`ratio > best_ratio`) over
rows with a non-NULL display_name, starting from (None, 0.0); the catalog side is
cleaned with `_clean_product_name` before scoring. -/
def fuzzyBest (sim : String → String → ℚ) (product_name : String)
    (rows : List CatalogRow) : Option (CatalogRow × String) × ℚ :=
  rows.foldl (fun acc row =>
    match row.display_name with
    | none => acc
    | some dn =>
      let r := sim product_name (cleanProductName dn)
      if acc.2 < r then (some (row, dn), r) else acc) (none, 0)

/-- Body of `ProductMatcher._fuzzy_match` (inside its try). -/
def fuzzyMatchBody (db : Catalog) (sim : String → String → ℚ)
    (product_name : String) : Except String MatchResult :=
  match db with
  | .ioError msg => .error msg
  | .ok rows =>
    match fuzzyBest sim product_name rows with
    | (some (row, dn), best) =>
      if 8/10 ≤ best then
        .ok ⟨some row.categoria_id, row.subcategoria_id, some row.categoria_nombre,
             row.subcategoria_nombre, best, "fuzzy",
             some ("Similitud " ++ fmt2 best ++ " con \"" ++ dn ++ "\"")⟩
      else .ok emptyMatch
    | (none, _) => .ok emptyMatch

/-- Embeds `ProductMatcher._fuzzy_match` with its exception handler. -/
def fuzzyMatch (db : Catalog) (sim : String → String → ℚ) (product_name : String) : MatchResult :=
  runTier (fuzzyMatchBody db sim product_name)

/-- Words of the cleaned query longer than 3 characters (`significant_words`). -/
def significantWords (product_name : String) : List String :=
  (splitWs product_name).filter (fun w => 3 < w.length)

/-- The `GROUP BY` key of the keyword query: every selected column except the
aggregate, so one group per distinct catalog product row. -/
def rowKey (row : CatalogRow) :
    Int × Option Int × String × Option String × Option String :=
  (row.categoria_id, row.subcategoria_id, row.categoria_nombre,
   row.subcategoria_nombre, row.display_name)

/-- Embeds `WHERE (LOWER(mp.display_name) LIKE %w1% OR ...)`: the row's display name
contains at least one significant word (NULL matches nothing). -/
def rowMatchesAnyWord (ws : List String) (row : CatalogRow) : Bool :=
  match row.display_name with
  | none => false
  | some dn => ws.any (fun w => strContains (lowerStr dn) w)

/-- Left-to-right accumulation of distinct group representatives. -/
def dedupeGo (acc : List CatalogRow) : List CatalogRow → List CatalogRow
  | [] => acc
  | row :: rest =>
    if acc.any (fun r => decide (rowKey r = rowKey row)) then dedupeGo acc rest
    else dedupeGo (acc ++ [row]) rest

/-- Distinct group representatives of the selected rows, in first-occurrence order. -/
def dedupeByKey (rows : List CatalogRow) : List CatalogRow :=
  dedupeGo [] rows

/-- The grouped result set of the keyword query: each distinct key with its
`COUNT(*)` over the selected rows. -/
def keywordGroups (ws : List String) (rows : List CatalogRow) : List (CatalogRow × Nat) :=
  let sel := rows.filter (rowMatchesAnyWord ws)
  (dedupeByKey sel).map (fun row => (row, sel.countP (fun r => decide (rowKey r = rowKey row))))

/-- Left-to-right selection of the best group so far, strict-improvement
replacement in the SQL sort order (count descending, then categoria_id). -/
def pickTopGo (best : CatalogRow × Nat) : List (CatalogRow × Nat) → CatalogRow × Nat
  | [] => best
  | g :: rest =>
    pickTopGo (if best.2 < g.2 ∨ (g.2 = best.2 ∧ g.1.categoria_id < best.1.categoria_id)
               then g else best) rest

/-- Embeds `ORDER BY matches DESC, mp.categoria_id LIMIT 1`: the group with the largest
count, ties broken by smallest categoria_id; remaining ties (unspecified in SQL)
are resolved by first occurrence. -/
def pickTopGroup : List (CatalogRow × Nat) → Option (CatalogRow × Nat)
  | [] => none
  | g :: rest => some (pickTopGo g rest)

/-- Body of `ProductMatcher._keyword_match` (inside its try). The word
tokenization happens before the connection is opened, so an empty word list
returns the empty result without touching the catalog. -/
def keywordMatchBody (db : Catalog) (product_name : String) : Except String MatchResult :=
  let words := splitWs product_name
  if words.isEmpty then .ok emptyMatch
  else if (significantWords product_name).isEmpty then .ok emptyMatch
  else
    match db with
    | .ioError msg => .error msg
    | .ok rows =>
      match pickTopGroup (keywordGroups (significantWords product_name) rows) with
      | none => .ok emptyMatch
      | some (row, matchCount) =>
        let confidence := min (9/10 : ℚ) ((matchCount : ℚ) / ((significantWords product_name).length : ℚ))
        .ok ⟨some row.categoria_id, row.subcategoria_id, some row.categoria_nombre,
             row.subcategoria_nombre, confidence, "keyword",
             some ("Coincidencia por palabras clave: " ++ toString matchCount ++ " de "
                   ++ toString (significantWords product_name).length)⟩

/-- Embeds `ProductMatcher._keyword_match` with its exception handler. -/
def keywordMatch (db : Catalog) (product_name : String) : MatchResult :=
  runTier (keywordMatchBody db product_name)

/-- Rows passing `WHERE mp.unit_price IS NOT NULL AND mp.unit_price BETWEEN %s AND %s`,
paired with their unit price. -/
def eligiblePrices (min_price max_price : ℚ) (rows : List CatalogRow) : List (CatalogRow × ℚ) :=
  rows.filterMap (fun row =>
    match row.unit_price with
    | some u => if min_price ≤ u ∧ u ≤ max_price then some (row, u) else none
    | none => none)

/-- Left-to-right selection of the price-wise closest row so far, strict
improvement only. -/
def pickClosestGo (price : ℚ) (best : CatalogRow × ℚ) : List (CatalogRow × ℚ) → CatalogRow × ℚ
  | [] => best
  | p :: rest => pickClosestGo price (if |p.2 - price| < |best.2 - price| then p else best) rest

/-- Embeds `ORDER BY price_diff LIMIT 1`: a row at minimal absolute distance from the
query price (first occurrence on ties, which SQL leaves unspecified). -/
def pickClosest (price : ℚ) : List (CatalogRow × ℚ) → Option (CatalogRow × ℚ)
  | [] => none
  | p :: rest => some (pickClosestGo price p rest)

/-- Body of `ProductMatcher._price_match` (inside its try): ±20% window, closest
row by absolute difference, confidence `max(0.5, 1 - price_diff / price)`.
When the query price is 0 and a row was found, the Python expression
`price_diff / price` raises ZeroDivisionError. The `product_name` parameter is
accepted but unused, as in the source. -/
def priceMatchBody (db : Catalog) (product_name : String) (price : ℚ) : Except String MatchResult :=
  let price_margin : ℚ := 2/10
  let min_price := price * (1 - price_margin)
  let max_price := price * (1 + price_margin)
  match db with
  | .ioError msg => .error msg
  | .ok rows =>
    match pickClosest price (eligiblePrices min_price max_price rows) with
    | none => .ok emptyMatch
    | some (row, unit_price) =>
      if price = 0 then .error "ZeroDivisionError: float division by zero"
      else
        let price_diff := |unit_price - price|
        let price_similarity := 1 - price_diff / price
        let confidence := max (5/10 : ℚ) price_similarity
        .ok ⟨some row.categoria_id, row.subcategoria_id, some row.categoria_nombre,
             row.subcategoria_nombre, confidence, "price",
             some ("Coincidencia por precio: €" ++ fmt2 unit_price ++ " vs €" ++ fmt2 price)⟩

/-- Embeds `ProductMatcher._price_match` with its exception handler. -/
def priceMatch (db : Catalog) (product_name : String) (price : ℚ) : MatchResult :=
  runTier (priceMatchBody db product_name price)

/-- The result `categorize_product` builds when no tier accepted. -/
def noMatchResult (product_name : String) : MatchResult :=
  ⟨none, none, none, none, 0, "no_match",
   some ("No se encontró categoría para: " ++ product_name)⟩

/-- Embeds `ProductMatcher.categorize_product`: clean the name, then try the tiers in
order, accepting the first whose confidence reaches its threshold; the price
tier runs only when a price was supplied. -/
def categorizeProduct (db : Catalog) (sim : String → String → ℚ)
    (product_name : String) (price : Option ℚ) : MatchResult :=
  let clean_name := cleanProductName product_name
  let r1 := exactMatch db clean_name
  if EXACT_MATCH_THRESHOLD ≤ r1.confidence then r1
  else
    let r2 := fuzzyMatch db sim clean_name
    if FUZZY_MATCH_THRESHOLD ≤ r2.confidence then r2
    else
      let r3 := keywordMatch db clean_name
      if KEYWORD_MATCH_THRESHOLD ≤ r3.confidence then r3
      else
        match price with
        | some p =>
          let r4 := priceMatch db clean_name p
          if PRICE_MATCH_THRESHOLD ≤ r4.confidence then r4
          else noMatchResult product_name
        | none => noMatchResult product_name

/-- Embeds `categorize_product` in the exception-threading semantics: its own body has
no try/except, so the only way an exception could escape is for a tier call to
raise — and each tier call is a `runTier`-wrapped body. -/
def categorizeProductE (db : Catalog) (sim : String → String → ℚ)
    (product_name : String) (price : Option ℚ) : Except String MatchResult :=
  let clean_name := cleanProductName product_name
  let r1 := runTier (exactMatchBody db clean_name)
  if EXACT_MATCH_THRESHOLD ≤ r1.confidence then .ok r1
  else
    let r2 := runTier (fuzzyMatchBody db sim clean_name)
    if FUZZY_MATCH_THRESHOLD ≤ r2.confidence then .ok r2
    else
      let r3 := runTier (keywordMatchBody db clean_name)
      if KEYWORD_MATCH_THRESHOLD ≤ r3.confidence then .ok r3
      else
        match price with
        | some p =>
          let r4 := runTier (priceMatchBody db clean_name p)
          if PRICE_MATCH_THRESHOLD ≤ r4.confidence then .ok r4
          else .ok (noMatchResult product_name)
        | none => .ok (noMatchResult product_name)

/-- A trivial similarity function used to instantiate the `difflib` parameter in
closed evaluations. -/
def simZero : String → String → ℚ := fun _ _ => 0

/-! ## Data model (`models/ticket.py`) -/

/-- The `Product` dataclass fields. -/
structure Product where
  quantity : Int
  description : String
  unit_price : Option ℚ
  total_price : ℚ
  weight : Option String
deriving DecidableEq

/-- Embeds `Product.__post_init__`: constructing a Product raises ValueError unless the
quantity and total price are positive and the description is neither empty nor
whitespace-only. -/
def mkProduct (p : Product) : Except String Product :=
  if p.quantity ≤ 0 then .error "La cantidad debe ser positiva"
  else if p.total_price ≤ 0 then .error "El precio total debe ser positivo"
  else if p.description = "" ∨ pyStrip p.description = "" then
    .error "La descripción no puede estar vacía"
  else .ok p

/-- The `TicketData` dataclass fields. The `datetime` payload of the date is
opaque to every checked property, so it is modelled as a bare `Option Nat`;
the IVA mapping is an association list of rate label to (base, cuota). -/
structure TicketData where
  store_name : String
  cif : String
  address : String
  postal_code : String
  city : String
  phone : String
  date : Option Nat
  time : String
  order_number : String
  invoice_number : String
  products : List Product
  total : ℚ
  payment_method : String
  iva_breakdown : List (String × ℚ × ℚ)
deriving DecidableEq

/-- Embeds `TicketData.__post_init__`: construction raises ValueError when the total is
not positive while products are present, or when a provided (truthy) store name
or CIF is whitespace-only. -/
def mkTicketData (t : TicketData) : Except String TicketData :=
  if t.total ≤ 0 ∧ t.products ≠ [] then
    .error "El total debe ser positivo cuando hay productos"
  else if t.store_name ≠ "" ∧ pyStrip t.store_name = "" then
    .error "El nombre de la tienda no puede estar vacío"
  else if t.cif ≠ "" ∧ pyStrip t.cif = "" then
    .error "El CIF no puede estar vacío"
  else .ok t

/-- Embeds `TicketData.products_total`: sum of the products' total prices. -/
def productsTotal (t : TicketData) : ℚ :=
  (t.products.map (fun p => p.total_price)).sum

/-! ## Ticket validator (`storage/postgresql.py`, `validate_ticket`) -/

/-- The interpolated total-mismatch reason string. -/
def mismatchMsg (suma total : ℚ) : String :=
  "Suma de productos (" ++ fmt2 suma ++ "€) no coincide con total (" ++ fmt2 total ++ "€)"

/-- The per-product validation loop of `validate_ticket`, with 1-based display
indices as produced by `enumerate`. -/
def productErrorsAux : Nat → List Product → List String
  | _, [] => []
  | i, p :: rest =>
    (if p.description = "" then ["Producto " ++ toString (i + 1) ++ " sin descripción"] else []) ++
    (if p.total_price ≤ 0 then ["Producto " ++ toString (i + 1) ++ " con precio inválido"] else []) ++
    productErrorsAux (i + 1) rest

/-- Embeds `PostgreSQLStorage.validate_ticket`: accumulates every failing check's reason
in order and returns (errors is empty, errors). The first check is Python's
`not ticket.total or ticket.total <= 0` (falsy-or-nonpositive); the products and
invoice checks are emptiness checks; consistency uses `is_total_consistent`
(absolute tolerance 0.5). -/
def validateTicket (t : TicketData) : Bool × List String :=
  let errors :=
    (if t.total = 0 ∨ t.total ≤ 0 then ["Total inválido o cero"] else []) ++
    (if t.products = [] ∨ t.products.length = 0 then ["Sin productos"] else []) ++
    (if t.date = none then ["Sin fecha"] else []) ++
    (if t.invoice_number = "" then ["Sin número de factura"] else []) ++
    (if |productsTotal t - t.total| ≤ 1/2 then []
     else [mismatchMsg (productsTotal t) t.total]) ++
    productErrorsAux 0 t.products
  (errors.isEmpty, errors)

/-! ## Mercadona ticket parser (`parsers/mercadona.py`) -/

/-- Embeds `TicketParserBase._clean_text`: `text.strip() if text else ""`, which is
`strip` on every string. -/
def cleanText (s : String) : String := pyStrip s

/-- Embeds `TicketParserBase.__init__`: `text.strip().split('\n') if text else []`. -/
def linesOf (text : String) : List String :=
  if text = "" then [] else (pyStrip text).splitOn "\n"

/-- Validity of the digit/underscore body accepted by Python `int()`: nonempty,
digits with single underscores strictly between digits. -/
def noDoubleUnderscore : List Char → Bool
  | [] => true
  | [_] => true
  | a :: b :: rest => !(a = '_' && b = '_') && noDoubleUnderscore (b :: rest)

/-- See `noDoubleUnderscore`. -/
def validUnderscoreDigits (l : List Char) : Bool :=
  match l with
  | [] => false
  | _ =>
    (l.head?.elim false Char.isDigit) &&
    (l.getLast?.elim false Char.isDigit) &&
    l.all (fun c => c.isDigit || c = '_') &&
    noDoubleUnderscore l

/-- Decimal value of a digit list. -/
def digitsVal (l : List Char) : Nat :=
  l.foldl (fun a c => a * 10 + (c.toNat - '0'.toNat)) 0

/-- Python `int(s)` on a whitespace-free token: optional sign, then digits with
optional single underscores between digits; `none` models ValueError. -/
def pyInt (s : String) : Option Int :=
  match s.data with
  | [] => none
  | c :: rest =>
    if c = '+' then
      if validUnderscoreDigits rest then some (digitsVal (rest.filter (· ≠ '_')) : ℕ) else none
    else if c = '-' then
      if validUnderscoreDigits rest then some (-(digitsVal (rest.filter (· ≠ '_')) : ℕ)) else none
    else if validUnderscoreDigits (c :: rest) then
      some (digitsVal ((c :: rest).filter (· ≠ '_')) : ℕ)
    else none

/-- Embeds `re.match(r'^\d+,\d+$', part)`: a nonempty digit run, one comma, and a
nonempty all-digit remainder. -/
def isCommaDecimal (s : String) : Bool :=
  let d1 := s.data.takeWhile Char.isDigit
  !d1.isEmpty &&
  (match s.data.drop d1.length with
   | c :: rest => c = ',' && !rest.isEmpty && rest.all Char.isDigit
   | [] => false)

/-- Value of `float(part.replace(',', '.'))` for a token matching
`^\d+,\d+$` (exact decimal value). -/
def commaToRat (s : String) : ℚ :=
  let d1 := s.data.takeWhile Char.isDigit
  let rest := s.data.drop (d1.length + 1)
  (digitsVal d1 : ℚ) + (digitsVal rest : ℚ) / ((10 : ℚ) ^ rest.length)

/-- Embeds `price_indices[0]`: the index of the first comma-decimal token. -/
def firstPriceIdx : List String → Option Nat
  | [] => none
  | t :: rest => if isCommaDecimal t then some 0 else (firstPriceIdx rest).map (· + 1)

/-- Embeds `' '.join(parts)`. -/
def joinSpace : List String → String
  | [] => ""
  | [a] => a
  | a :: rest => a ++ " " ++ joinSpace rest

/-- Match of `(\d+,\d+)\s*kg` anchored at the head of the character list,
returning the captured group; the digit runs are maximal (no backtracking can
help this pattern). -/
def matchCommaKgAt (l : List Char) : Option String :=
  let d1 := l.takeWhile Char.isDigit
  if d1.isEmpty then none
  else
    match l.drop d1.length with
    | ',' :: rest2 =>
      let d2 := rest2.takeWhile Char.isDigit
      if d2.isEmpty then none
      else
        match (rest2.drop d2.length).dropWhile Char.isWhitespace with
        | 'k' :: 'g' :: _ => some ⟨d1 ++ ',' :: d2⟩
        | _ => none
    | _ => none

/-- Embeds `re.search(r'(\d+,\d+)\s*kg', line)`: leftmost match. -/
def searchCommaKg : List Char → Option String
  | [] => none
  | l@(_ :: rest) =>
    match matchCommaKgAt l with
    | some w => some w
    | none => searchCommaKg rest

/-- The weight extraction of `_parse_product_line`: gated on a `kg` marker, the
captured figure suffixed with `' kg'`. -/
def findWeight (line : String) : Option String :=
  if strContains line "kg" || strContains line "€/kg" then
    match searchCommaKg line.data with
    | some w => some (w ++ " kg")
    | none => none
  else none

/-- Embeds `MercadonaTicketParser._parse_product_line`: first token must be an `int()`
quantity; comma-decimal tokens are price candidates; the description is the
tokens strictly between the quantity and the first price; two candidates mean
(unit, total), otherwise the first candidate is the total; the Product
constructor's ValueError is caught, dropping the line. -/
def parseProductLine (line : String) : Option Product :=
  let parts := splitWs line
  if parts.length < 2 then none
  else
    match pyInt (parts.headD "") with
    | none => none
    | some quantity =>
      let prices := (parts.filter isCommaDecimal).map commaToRat
      if prices.isEmpty then none
      else
        match firstPriceIdx parts with
        | none => none
        | some firstIdx =>
          let desc_parts := (parts.take firstIdx).drop 1
          let description := joinSpace desc_parts
          let weight := findWeight line
          let pair : Option ℚ × ℚ :=
            match prices with
            | [u, t] => (some u, t)
            | t :: _ => (none, t)
            | [] => (none, 0)
          match mkProduct ⟨quantity, description, pair.1, pair.2, weight⟩ with
          | .ok p => some p
          | .error _ => none

/-- The product-table state machine of `_parse_products`: a header line holding
both markers opens the span, a TOTAL€ line closes it, and every non-empty line
inside the span is offered to the product-line parser, keeping successes in
document order. -/
def parseProductsAux : Bool → List String → List Product
  | _, [] => []
  | inProducts, l :: ls =>
    let c := cleanText l
    if strContains c "Descripción" && strContains c "Importe" then parseProductsAux true ls
    else if strContains c "TOTAL" && strContains c "€" then parseProductsAux false ls
    else if !inProducts || c = "" then parseProductsAux inProducts ls
    else
      match parseProductLine c with
      | some p => p :: parseProductsAux inProducts ls
      | none => parseProductsAux inProducts ls

/-- Embeds `MercadonaTicketParser._parse_products`, projected to the resulting list. -/
def parseProducts (lines : List String) : List Product :=
  parseProductsAux false lines

/-- The cleaned non-empty lines inside the product-table span, same state
machine as `parseProductsAux`. -/
def productSpanLinesAux : Bool → List String → List String
  | _, [] => []
  | inProducts, l :: ls =>
    let c := cleanText l
    if strContains c "Descripción" && strContains c "Importe" then productSpanLinesAux true ls
    else if strContains c "TOTAL" && strContains c "€" then productSpanLinesAux false ls
    else if !inProducts || c = "" then productSpanLinesAux inProducts ls
    else c :: productSpanLinesAux inProducts ls

/-- See `productSpanLinesAux`. -/
def productSpanLines (lines : List String) : List String :=
  productSpanLinesAux false lines

/-! ### Invoice-number extraction (`_parse_store_info`) -/

/-- Match of `\d+-\d+-\d+` anchored at the head (maximal digit runs; the
pattern admits no useful backtracking). -/
def matchDashTripleAt (l : List Char) : Option (List Char) :=
  let d1 := l.takeWhile Char.isDigit
  if d1.isEmpty then none
  else
    match l.drop d1.length with
    | '-' :: r1 =>
      let d2 := r1.takeWhile Char.isDigit
      if d2.isEmpty then none
      else
        match r1.drop d2.length with
        | '-' :: r2 =>
          let d3 := r2.takeWhile Char.isDigit
          if d3.isEmpty then none else some (d1 ++ '-' :: (d2 ++ '-' :: d3))
        | _ => none
    | _ => none

/-- Embeds `re.search(r'(\d+-\d+-\d+)', line)`: leftmost match. -/
def searchDashTriple : List Char → Option String
  | [] => none
  | l@(_ :: rest) =>
    match matchDashTripleAt l with
    | some w => some ⟨w⟩
    | none => searchDashTriple rest

/-- Match of `FACTURA:\s*(\d+)` anchored at the head, returning the digits. -/
def matchFacturaAt (l : List Char) : Option String :=
  if "FACTURA:".data.isPrefixOf l then
    let r := (l.drop 8).dropWhile Char.isWhitespace
    let d := r.takeWhile Char.isDigit
    if d.isEmpty then none else some ⟨d⟩
  else none

/-- Embeds `re.search(r'FACTURA:\s*(\d+)', line)`: leftmost match. -/
def searchFacturaNum : List Char → Option String
  | [] => none
  | l@(_ :: rest) =>
    match matchFacturaAt l with
    | some w => some w
    | none => searchFacturaNum rest

/-- Case-insensitive prefix test against a lowercase pattern. -/
def ciPrefixOf (pat : String) (l : List Char) : Bool :=
  pat.data.isPrefixOf ((l.take pat.data.length).map Char.toLower)

/-- Match of `Nº\s*(?:FACTURA|FAC):` (IGNORECASE) anchored at the head. -/
def matchNumFacAt (l : List Char) : Bool :=
  match l with
  | c1 :: 'º' :: r2 =>
    (c1 = 'N' || c1 = 'n') &&
    (let r3 := r2.dropWhile Char.isWhitespace
     (ciPrefixOf "factura" r3 && (r3.drop 7).head?.elim false (· = ':')) ||
     (ciPrefixOf "fac" r3 && (r3.drop 3).head?.elim false (· = ':')))
  | _ => false

/-- Embeds `re.search(r'Nº\s*(?:FACTURA|FAC):', line, re.IGNORECASE)` as a test. -/
def hasNumFacLabel : List Char → Bool
  | [] => false
  | l@(_ :: rest) => matchNumFacAt l || hasNumFacLabel rest

/-- Match of `\d+-\d+-\d+|\d+` anchored at the head: the dash-triple
alternative first, else a plain digit run. -/
def matchDashOrNumAt (l : List Char) : Option String :=
  match matchDashTripleAt l with
  | some w => some ⟨w⟩
  | none =>
    let d := l.takeWhile Char.isDigit
    if d.isEmpty then none else some ⟨d⟩

/-- Embeds `re.search(r'(\d+-\d+-\d+|\d+)', line)`: leftmost match. -/
def searchDashOrNum : List Char → Option String
  | [] => none
  | l@(_ :: rest) =>
    match matchDashOrNumAt l with
    | some w => some w
    | none => searchDashOrNum rest

/-- Embeds `re.match(r'\d{5}\s+\w+', line)`: five digits, then whitespace, then a word
character, anchored at the start (the fixed-width pieces admit no backtracking). -/
def postalLine (line : String) : Bool :=
  let l := line.data
  let d := l.take 5
  d.length = 5 && d.all Char.isDigit &&
  (let r := l.drop 5
   let ws := r.takeWhile Char.isWhitespace
   !ws.isEmpty && ((r.drop ws.length).head?.elim false (fun c => c.isAlphanum || c = '_')))

/-- Exactly `n` digits at the head, returning the remainder. -/
def takeDigits : Nat → List Char → Option (List Char)
  | 0, l => some l
  | n + 1, c :: rest => if c.isDigit then takeDigits n rest else none
  | _ + 1, [] => none

/-- Embeds `re.match(r'\d{2}/\d{2}/\d{4}\s+\d{2}:\d{2}', line)` anchored at the start. -/
def dateTimeLine (line : String) : Bool :=
  (do
    let r1 ← takeDigits 2 line.data
    let r2 ← match r1 with | '/' :: t => some t | _ => none
    let r3 ← takeDigits 2 r2
    let r4 ← match r3 with | '/' :: t => some t | _ => none
    let r5 ← takeDigits 4 r4
    let ws := r5.takeWhile Char.isWhitespace
    let r6 ← if ws.isEmpty then none else some (r5.drop ws.length)
    let r7 ← takeDigits 2 r6
    let r8 ← match r7 with | ':' :: t => some t | _ => none
    let _ ← takeDigits 2 r8
    some ()).isSome

/-- One line of `_parse_store_info`, projected to the invoice-number field. The
elif chain is embedded in full because an earlier branch consuming a line
prevents the invoice branches from seeing it; only the invoice branches write
the field. The fallback branch keeps the source's `if not ticket.products`
guard; `parse()` calls `_parse_store_info` before `_parse_products`, so at every
call site that list is empty. -/
def invoiceStep (products : List Product) (inv : String) (rawLine : String) : String :=
  let line := cleanText rawLine
  if strContains line "MERCADONA" && strContains line "A-" then inv
  else if strContains line "C/" || strContains line "HUMANES" then inv
  else if postalLine line then inv
  else if strContains line "TELÉFONO:" then inv
  else if dateTimeLine line then inv
  else if strContains line "OP:" then inv
  else if strContains line "FACTURA SIMPLIFICADA:" then
    (searchDashTriple line.data).getD inv
  else if strContains line "FACTURA:" then
    (searchFacturaNum line.data).getD inv
  else if hasNumFacLabel line.data then
    (searchDashOrNum line.data).getD inv
  else if (searchDashTriple line.data).isSome && inv = "" then
    if products.isEmpty then (searchDashTriple line.data).getD inv else inv
  else inv

/-- The invoice number after `_parse_store_info` has scanned every line, as
invoked from `parse()` (fresh ticket: empty invoice number, empty product list). -/
def parseInvoiceNumber (lines : List String) : String :=
  lines.foldl (invoiceStep []) ""

/-! ## Lemmas about the matcher tiers -/

lemma exactMatch_shape (db : Catalog) (n : String) :
    exactMatch db n = emptyMatch ∨
      ((exactMatch db n).confidence = 1 ∧ (exactMatch db n).match_type = "exact") := by
  unfold exactMatch exactMatchBody runTier
  cases db with
  | ioError msg => exact Or.inl rfl
  | ok rows =>
    rcases hfind : rows.find? (fun row =>
        match row.display_name with
        | some dn => sqlLowerTrim dn == n
        | none => false) with _ | row
    · simp [hfind]
    · simp [hfind]

lemma fuzzyMatch_shape (db : Catalog) (sim : String → String → ℚ) (n : String) :
    fuzzyMatch db sim n = emptyMatch ∨ (fuzzyMatch db sim n).match_type = "fuzzy" := by
  unfold fuzzyMatch fuzzyMatchBody runTier
  cases db with
  | ioError msg => exact Or.inl rfl
  | ok rows =>
    rcases hbest : fuzzyBest sim n rows with ⟨_ | ⟨row, dn⟩, best⟩
    · simp [hbest]
    · by_cases hth : (8 : ℚ)/10 ≤ best
      · simp [hbest, hth]
      · simp [hbest, hth]

lemma keywordMatch_shape (db : Catalog) (n : String) :
    keywordMatch db n = emptyMatch ∨ (keywordMatch db n).match_type = "keyword" := by
  unfold keywordMatch keywordMatchBody runTier
  by_cases hw : (splitWs n).isEmpty
  · simp [hw]
  · by_cases hs : (significantWords n).isEmpty
    · simp [hw, hs]
    · cases db with
      | ioError msg => simp [hw, hs]
      | ok rows =>
        rcases htop : pickTopGroup (keywordGroups (significantWords n) rows) with _ | ⟨row, cnt⟩
        · simp [hw, hs, htop]
        · simp [hw, hs, htop]

lemma priceMatch_shape (db : Catalog) (n : String) (p : ℚ) :
    priceMatch db n p = emptyMatch ∨ (priceMatch db n p).match_type = "price" := by
  unfold priceMatch priceMatchBody runTier
  cases db with
  | ioError msg => exact Or.inl rfl
  | ok rows =>
    rcases hpc : pickClosest p (eligiblePrices (p * (1 - 2/10)) (p * (1 + 2/10)) rows)
      with _ | ⟨row, u⟩
    · simp [hpc]
    · by_cases hp : p = 0
      · subst hp
        simp only [hpc]
        simp
      · simp only [hpc]
        simp [hp]

/-- The cascade returns the exact tier's result as soon as it clears its threshold. -/
lemma cascadeExact (db : Catalog) (sim : String → String → ℚ) (name : String) (priceOpt : Option ℚ)
    (h : EXACT_MATCH_THRESHOLD ≤ (exactMatch db (cleanProductName name)).confidence) :
    categorizeProduct db sim name priceOpt = exactMatch db (cleanProductName name) := by
  simp only [categorizeProduct]
  rw [if_pos h]

/-- When no tier clears its threshold the cascade builds the no-match result. -/
lemma cascadeNoAccept (db : Catalog) (sim : String → String → ℚ) (name : String)
    (priceOpt : Option ℚ)
    (h1 : (exactMatch db (cleanProductName name)).confidence < EXACT_MATCH_THRESHOLD)
    (h2 : (fuzzyMatch db sim (cleanProductName name)).confidence < FUZZY_MATCH_THRESHOLD)
    (h3 : (keywordMatch db (cleanProductName name)).confidence < KEYWORD_MATCH_THRESHOLD)
    (h4 : ∀ p, priceOpt = some p →
      (priceMatch db (cleanProductName name) p).confidence < PRICE_MATCH_THRESHOLD) :
    categorizeProduct db sim name priceOpt = noMatchResult name := by
  simp only [categorizeProduct]
  rw [if_neg (not_le.mpr h1), if_neg (not_le.mpr h2), if_neg (not_le.mpr h3)]
  cases priceOpt with
  | none => rfl
  | some p =>
    simp [not_le.mpr (h4 p rfl)]

/-- When the first three tiers miss and the price tier clears its threshold, the
cascade returns the price tier's result. -/
lemma cascadePrice (db : Catalog) (sim : String → String → ℚ) (name : String) (p : ℚ)
    (h1 : (exactMatch db (cleanProductName name)).confidence < EXACT_MATCH_THRESHOLD)
    (h2 : (fuzzyMatch db sim (cleanProductName name)).confidence < FUZZY_MATCH_THRESHOLD)
    (h3 : (keywordMatch db (cleanProductName name)).confidence < KEYWORD_MATCH_THRESHOLD)
    (h4 : PRICE_MATCH_THRESHOLD ≤ (priceMatch db (cleanProductName name) p).confidence) :
    categorizeProduct db sim name (some p) = priceMatch db (cleanProductName name) p := by
  simp only [categorizeProduct]
  rw [if_neg (not_le.mpr h1), if_neg (not_le.mpr h2), if_neg (not_le.mpr h3)]
  simp [h4]

lemma pickClosestGo_spec (price : ℚ) (l : List (CatalogRow × ℚ)) :
    ∀ b : CatalogRow × ℚ,
      (pickClosestGo price b l = b ∨ pickClosestGo price b l ∈ l)
      ∧ |(pickClosestGo price b l).2 - price| ≤ |b.2 - price|
      ∧ ∀ q ∈ l, |(pickClosestGo price b l).2 - price| ≤ |q.2 - price| := by
  induction l with
  | nil => intro b; simp [pickClosestGo]
  | cons p rest ih =>
    intro b
    simp only [pickClosestGo]
    by_cases h : |p.2 - price| < |b.2 - price|
    · rw [if_pos h]
      obtain ⟨hm, hle, hall⟩ := ih p
      refine ⟨?_, ?_, ?_⟩
      · rcases hm with hm | hm
        · exact Or.inr (by simp [hm])
        · exact Or.inr (List.mem_cons_of_mem _ hm)
      · exact le_trans hle (le_of_lt h)
      · intro q hq
        rcases List.mem_cons.mp hq with rfl | hq
        · exact hle
        · exact hall q hq
    · rw [if_neg h]
      obtain ⟨hm, hle, hall⟩ := ih b
      refine ⟨?_, hle, ?_⟩
      · rcases hm with hm | hm
        · exact Or.inl hm
        · exact Or.inr (List.mem_cons_of_mem _ hm)
      · intro q hq
        rcases List.mem_cons.mp hq with rfl | hq
        · exact le_trans hle (not_lt.mp h)
        · exact hall q hq

lemma pickClosest_spec (price : ℚ) (l : List (CatalogRow × ℚ)) (res : CatalogRow × ℚ)
    (h : pickClosest price l = some res) :
    res ∈ l ∧ ∀ q ∈ l, |res.2 - price| ≤ |q.2 - price| := by
  cases l with
  | nil => simp [pickClosest] at h
  | cons p rest =>
    simp only [pickClosest, Option.some.injEq] at h
    obtain ⟨hm, hle, hall⟩ := pickClosestGo_spec price rest p
    rw [h] at hm hle hall
    refine ⟨?_, ?_⟩
    · rcases hm with hm | hm
      · simp [hm]
      · exact List.mem_cons_of_mem _ hm
    · intro q hq
      rcases List.mem_cons.mp hq with rfl | hq
      · exact hle
      · exact hall q hq

lemma eligiblePrices_mem (min_price max_price : ℚ) (rows : List CatalogRow)
    (row : CatalogRow) (u : ℚ) (h : (row, u) ∈ eligiblePrices min_price max_price rows) :
    row ∈ rows ∧ row.unit_price = some u ∧ min_price ≤ u ∧ u ≤ max_price := by
  unfold eligiblePrices at h
  rw [List.mem_filterMap] at h
  obtain ⟨a, ha, hf⟩ := h
  rcases hu : a.unit_price with _ | u0
  · rw [hu] at hf; simp at hf
  · rw [hu] at hf
    by_cases hc : min_price ≤ u0 ∧ u0 ≤ max_price
    · simp [hc, Prod.ext_iff] at hf
      obtain ⟨rfl, rfl⟩ := hf
      exact ⟨ha, hu, hc.1, hc.2⟩
    · simp [hc] at hf

/-- Everything `_price_match` guarantees when it returns a non-empty result:
the chosen row is eligible (within ±20% inclusive), its unit price minimizes
the absolute difference among eligible rows, the query price is nonzero, and
the result carries confidence `max(0.5, 1 - |Δ|/price)` and match type `price`. -/
lemma priceMatch_spec (rows : List CatalogRow) (n : String) (p : ℚ)
    (h : priceMatch (Catalog.ok rows) n p ≠ emptyMatch) :
    ∃ row u, (row, u) ∈ eligiblePrices (p * (1 - 2/10)) (p * (1 + 2/10)) rows
      ∧ row.unit_price = some u
      ∧ p * (1 - 2/10) ≤ u ∧ u ≤ p * (1 + 2/10)
      ∧ (∀ q ∈ eligiblePrices (p * (1 - 2/10)) (p * (1 + 2/10)) rows, |u - p| ≤ |q.2 - p|)
      ∧ p ≠ 0
      ∧ priceMatch (Catalog.ok rows) n p =
          ⟨some row.categoria_id, row.subcategoria_id, some row.categoria_nombre,
           row.subcategoria_nombre, max (5/10) (1 - |u - p| / p), "price",
           some ("Coincidencia por precio: €" ++ fmt2 u ++ " vs €" ++ fmt2 p)⟩ := by
  rcases hpc : pickClosest p (eligiblePrices (p * (1 - 2/10)) (p * (1 + 2/10)) rows)
    with _ | ⟨row, u⟩
  · exfalso
    apply h
    unfold priceMatch priceMatchBody runTier
    simp only [hpc]
  · by_cases hp : p = 0
    · exfalso
      apply h
      unfold priceMatch priceMatchBody runTier
      simp only [hpc]
      rw [if_pos hp]
    · obtain ⟨hmem, hmin⟩ := pickClosest_spec p _ _ hpc
      obtain ⟨_, hup, hlo, hhi⟩ := eligiblePrices_mem _ _ _ _ _ hmem
      refine ⟨row, u, hmem, hup, hlo, hhi, hmin, hp, ?_⟩
      unfold priceMatch priceMatchBody runTier
      simp only [hpc]
      rw [if_neg hp]

lemma pickTopGo_spec (l : List (CatalogRow × Nat)) :
    ∀ b : CatalogRow × Nat,
      (pickTopGo b l = b ∨ pickTopGo b l ∈ l)
      ∧ b.2 ≤ (pickTopGo b l).2
      ∧ ∀ g ∈ l, g.2 ≤ (pickTopGo b l).2 := by
  induction l with
  | nil => intro b; simp [pickTopGo]
  | cons g rest ih =>
    intro b
    simp only [pickTopGo]
    by_cases h : b.2 < g.2 ∨ (g.2 = b.2 ∧ g.1.categoria_id < b.1.categoria_id)
    · rw [if_pos h]
      obtain ⟨hm, hle, hall⟩ := ih g
      have hbg : b.2 ≤ g.2 := by
        rcases h with h | ⟨h, _⟩
        · exact le_of_lt h
        · exact le_of_eq h.symm
      refine ⟨?_, le_trans hbg hle, ?_⟩
      · rcases hm with hm | hm
        · exact Or.inr (by simp [hm])
        · exact Or.inr (List.mem_cons_of_mem _ hm)
      · intro q hq
        rcases List.mem_cons.mp hq with rfl | hq
        · exact hle
        · exact hall q hq
    · rw [if_neg h]
      obtain ⟨hm, hle, hall⟩ := ih b
      have hgb : g.2 ≤ b.2 := by
        rcases not_or.mp h with ⟨h1, _⟩
        exact not_lt.mp h1
      refine ⟨?_, hle, ?_⟩
      · rcases hm with hm | hm
        · exact Or.inl hm
        · exact Or.inr (List.mem_cons_of_mem _ hm)
      · intro q hq
        rcases List.mem_cons.mp hq with rfl | hq
        · exact le_trans hgb hle
        · exact hall q hq

lemma pickTopGroup_spec (l : List (CatalogRow × Nat)) (res : CatalogRow × Nat)
    (h : pickTopGroup l = some res) :
    res ∈ l ∧ ∀ g ∈ l, g.2 ≤ res.2 := by
  cases l with
  | nil => simp [pickTopGroup] at h
  | cons g rest =>
    simp only [pickTopGroup, Option.some.injEq] at h
    obtain ⟨hm, hle, hall⟩ := pickTopGo_spec rest g
    rw [h] at hm hle hall
    refine ⟨?_, ?_⟩
    · rcases hm with hm | hm
      · simp [hm]
      · exact List.mem_cons_of_mem _ hm
    · intro q hq
      rcases List.mem_cons.mp hq with rfl | hq
      · exact hle
      · exact hall q hq

lemma dedupeGo_sub (l : List CatalogRow) :
    ∀ acc x, x ∈ dedupeGo acc l → x ∈ acc ∨ x ∈ l := by
  induction l with
  | nil => intro acc x hx; exact Or.inl hx
  | cons row rest ih =>
    intro acc x hx
    simp only [dedupeGo] at hx
    by_cases h : acc.any (fun r => decide (rowKey r = rowKey row))
    · rw [if_pos h] at hx
      rcases ih acc x hx with hm | hm
      · exact Or.inl hm
      · exact Or.inr (List.mem_cons_of_mem _ hm)
    · rw [if_neg h] at hx
      rcases ih (acc ++ [row]) x hx with hm | hm
      · rcases List.mem_append.mp hm with hm | hm
        · exact Or.inl hm
        · simp at hm
          exact Or.inr (by simp [hm])
      · exact Or.inr (List.mem_cons_of_mem _ hm)

/-- Any group produced by the keyword query pairs a selected row (one matching
at least one significant word) with the `COUNT(*)` of its `GROUP BY` key over
the selected rows. -/
lemma keywordGroups_mem (ws : List String) (rows : List CatalogRow)
    (row : CatalogRow) (cnt : Nat) (h : (row, cnt) ∈ keywordGroups ws rows) :
    rowMatchesAnyWord ws row = true
    ∧ cnt = (rows.filter (rowMatchesAnyWord ws)).countP
        (fun r => decide (rowKey r = rowKey row)) := by
  unfold keywordGroups at h
  rw [List.mem_map] at h
  obtain ⟨r0, hr0, heq⟩ := h
  obtain ⟨rfl, rfl⟩ : r0 = row ∧
      (rows.filter (rowMatchesAnyWord ws)).countP
        (fun r => decide (rowKey r = rowKey r0)) = cnt := by
    simpa [Prod.ext_iff] using heq
  rcases dedupeGo_sub _ _ _ hr0 with hm | hm
  · simp at hm
  · exact ⟨(List.mem_filter.mp hm).2, rfl⟩

lemma keywordMatch_ioError (msg n : String) :
    keywordMatch (Catalog.ioError msg) n = emptyMatch := by
  unfold keywordMatch keywordMatchBody runTier
  by_cases hw : (splitWs n).isEmpty
  · simp [hw]
  · by_cases hs : (significantWords n).isEmpty
    · simp [hw, hs]
    · simp [hw, hs]

/-- The exception-threading cascade always returns `ok`: the only raising
subterms are the tier bodies, each guarded by its handler. -/
lemma categorizeE_ok (db : Catalog) (sim : String → String → ℚ)
    (name : String) (priceOpt : Option ℚ) :
    categorizeProductE db sim name priceOpt
      = Except.ok (categorizeProduct db sim name priceOpt) := by
  unfold categorizeProductE categorizeProduct exactMatch fuzzyMatch keywordMatch priceMatch
  cases priceOpt <;> dsimp only [] <;> split_ifs <;> rfl

/-! ## Claim theorems: category matcher -/

/-- Claim C8: when no tier accepts (no price supplied and the exact, fuzzy and
keyword tiers each stay below their thresholds), categorize_product returns a
MatchResult with null category and subcategory ids, confidence 0.0, the
no-match variant as match type, and a diagnostic message naming the query. -/
theorem claim_c8 (db : Catalog) (sim : String → String → ℚ) (name : String)
    (h1 : (exactMatch db (cleanProductName name)).confidence < EXACT_MATCH_THRESHOLD)
    (h2 : (fuzzyMatch db sim (cleanProductName name)).confidence < FUZZY_MATCH_THRESHOLD)
    (h3 : (keywordMatch db (cleanProductName name)).confidence < KEYWORD_MATCH_THRESHOLD) :
    categorizeProduct db sim name none =
      ⟨none, none, none, none, 0, "no_match",
       some ("No se encontró categoría para: " ++ name)⟩ :=
  cascadeNoAccept db sim name none h1 h2 h3 (fun _ h => by cases h)

/-- Witness for C8 at a concrete query against an empty catalog. -/
theorem claim_c8_witness :
    categorizeProduct (Catalog.ok []) simZero "yogur natural" none =
      ⟨none, none, none, none, 0, "no_match",
       some ("No se encontró categoría para: " ++ "yogur natural")⟩ :=
  claim_c8 (Catalog.ok []) simZero "yogur natural" (by with_unfolding_all decide)
    (by with_unfolding_all decide) (by with_unfolding_all decide)

/-- Counterexample to claim C2: an I/O failure raised at the storage boundary
during the exact (and fuzzy) tier does NOT propagate out of categorize_product;
the broad `except Exception` in each tier suppresses it and the matcher returns
the ordinary no-match result. -/
theorem claim_c2_counterexample :
    exactMatchBody (Catalog.ioError "connection refused") (cleanProductName "leche")
        = Except.error "connection refused"
    ∧ fuzzyMatchBody (Catalog.ioError "connection refused") simZero (cleanProductName "leche")
        = Except.error "connection refused"
    ∧ categorizeProductE (Catalog.ioError "connection refused") simZero "leche" none
        = Except.ok (noMatchResult "leche")
    ∧ categorizeProduct (Catalog.ioError "connection refused") simZero "leche" none
        = noMatchResult "leche" :=
  ⟨rfl, rfl, by with_unfolding_all rfl, by with_unfolding_all rfl⟩

/-- Claim C2 as amended: a storage I/O failure raised during any tier is caught
inside that tier (logged and treated as that tier's no-match); for every query
against a failing storage boundary, categorize_product returns the ordinary
no-match MatchResult and never lets the failure escape. -/
theorem claim_c2_theorem (msg : String) (sim : String → String → ℚ)
    (name : String) (priceOpt : Option ℚ) :
    categorizeProduct (Catalog.ioError msg) sim name priceOpt = noMatchResult name
    ∧ categorizeProductE (Catalog.ioError msg) sim name priceOpt
        = Except.ok (noMatchResult name) := by
  have hmain : categorizeProduct (Catalog.ioError msg) sim name priceOpt = noMatchResult name := by
    apply cascadeNoAccept
    · show (emptyMatch).confidence < EXACT_MATCH_THRESHOLD
      norm_num [emptyMatch, EXACT_MATCH_THRESHOLD]
    · show (emptyMatch).confidence < FUZZY_MATCH_THRESHOLD
      norm_num [emptyMatch, FUZZY_MATCH_THRESHOLD]
    · rw [keywordMatch_ioError]
      norm_num [emptyMatch, KEYWORD_MATCH_THRESHOLD]
    · intro p _
      show (emptyMatch).confidence < PRICE_MATCH_THRESHOLD
      norm_num [emptyMatch, PRICE_MATCH_THRESHOLD]
  exact ⟨hmain, by rw [categorizeE_ok, hmain]⟩

/-- Witness for the amended C2 at a concrete failing boundary and query. -/
theorem claim_c2_witness :
    categorizeProduct (Catalog.ioError "timeout") simZero "queso curado" (some 2)
        = noMatchResult "queso curado"
    ∧ categorizeProductE (Catalog.ioError "timeout") simZero "queso curado" (some 2)
        = Except.ok (noMatchResult "queso curado") :=
  claim_c2_theorem "timeout" simZero "queso curado" (some 2)

/-- Claim C10: categorize_product is total at its public interface — for every
catalog state (including a failing one), similarity function, description
(including the empty string) and optional price (including 0, where the price
similarity divides by the price, and negative values), the exception-threading
semantics returns `ok` of a MatchResult; the conjuncts exhibit tier bodies that
do raise (I/O failure, ZeroDivisionError at price 0) while the wrapped cascade
still returns normally. -/
theorem claim_c10 :
    (∀ (db : Catalog) (sim : String → String → ℚ) (name : String) (priceOpt : Option ℚ),
        categorizeProductE db sim name priceOpt
          = Except.ok (categorizeProduct db sim name priceOpt))
    ∧ exactMatchBody (Catalog.ioError "connection refused") (cleanProductName "")
        = Except.error "connection refused"
    ∧ categorizeProduct (Catalog.ioError "connection refused") simZero "" none
        = noMatchResult ""
    ∧ priceMatchBody (Catalog.ok [⟨1, none, "Cat", none, some "zzzz", some 0⟩])
        (cleanProductName "x") 0 = Except.error "ZeroDivisionError: float division by zero"
    ∧ categorizeProduct (Catalog.ok [⟨1, none, "Cat", none, some "zzzz", some 0⟩])
        simZero "x" (some 0) = noMatchResult "x"
    ∧ categorizeProduct (Catalog.ok []) simZero "" (some (-1)) = noMatchResult "" :=
  ⟨categorizeE_ok, rfl, by with_unfolding_all rfl, by with_unfolding_all rfl,
   by with_unfolding_all rfl, by with_unfolding_all rfl⟩

/-- Counterexample to claim C5: the exact tier does not apply one identical
normalization to both sides. Query and catalog description are the very same
string "leche, entera" (so any normalization applied identically to both sides
makes them equal, and the claim demands an exact accept at confidence 1.0), yet
the exact tier compares the fully cleaned query "leche entera" against only
LOWER(TRIM(...)) of the catalog side, misses, and the cascade ends in no-match. -/
theorem claim_c5_counterexample :
    cleanProductName "leche, entera" = "leche entera"
    ∧ sqlLowerTrim "leche, entera" = "leche, entera"
    ∧ exactMatch (Catalog.ok [⟨3, some 7, "Lácteos", some "Leche", some "leche, entera", some 1⟩])
        (cleanProductName "leche, entera") = emptyMatch
    ∧ (categorizeProduct
        (Catalog.ok [⟨3, some 7, "Lácteos", some "Leche", some "leche, entera", some 1⟩])
        simZero "leche, entera" none).match_type = "no_match"
    ∧ (categorizeProduct
        (Catalog.ok [⟨3, some 7, "Lácteos", some "Leche", some "leche, entera", some 1⟩])
        simZero "leche, entera" none).confidence = 0 :=
  ⟨rfl, rfl, rfl, by with_unfolding_all rfl, by with_unfolding_all rfl⟩

/-- Claim C5 as amended: the exact tier compares the cleaned query (lower-case,
specials stripped, whitespace collapsed) against LOWER(TRIM(display_name)) of
each catalog row; whenever that equality holds for some row, the exact tier
accepts with confidence 1.0, and because the exact tier runs first the result
is exact regardless of the similarity function, the price, and catalog order. -/
theorem claim_c5_theorem (rows : List CatalogRow) (sim : String → String → ℚ)
    (name : String) (priceOpt : Option ℚ) (row : CatalogRow) (dn : String)
    (hmem : row ∈ rows) (hdn : row.display_name = some dn)
    (heq : sqlLowerTrim dn = cleanProductName name) :
    (categorizeProduct (Catalog.ok rows) sim name priceOpt).confidence = 1
    ∧ (categorizeProduct (Catalog.ok rows) sim name priceOpt).match_type = "exact" := by
  have hpred : (fun r : CatalogRow =>
      match r.display_name with
      | some d => sqlLowerTrim d == cleanProductName name
      | none => false) row = true := by
    show (match row.display_name with
      | some d => sqlLowerTrim d == cleanProductName name
      | none => false) = true
    rw [hdn]
    simp [heq]
  have hne : rows.find? (fun r : CatalogRow =>
      match r.display_name with
      | some d => sqlLowerTrim d == cleanProductName name
      | none => false) ≠ none := by
    intro hnone
    exact absurd hpred (by simpa using List.find?_eq_none.mp hnone row hmem)
  rcases hfind : rows.find? (fun r : CatalogRow =>
      match r.display_name with
      | some d => sqlLowerTrim d == cleanProductName name
      | none => false) with _ | r0
  · exact absurd hfind hne
  · have hex : exactMatch (Catalog.ok rows) (cleanProductName name) =
        ⟨some r0.categoria_id, r0.subcategoria_id, some r0.categoria_nombre,
         r0.subcategoria_nombre, 1, "exact", some "Coincidencia exacta por nombre"⟩ := by
      unfold exactMatch exactMatchBody runTier
      simp only [hfind]
    have hconf : EXACT_MATCH_THRESHOLD ≤
        (exactMatch (Catalog.ok rows) (cleanProductName name)).confidence := by
      rw [hex]
      norm_num [EXACT_MATCH_THRESHOLD]
    rw [cascadeExact _ _ _ _ hconf, hex]
    exact ⟨rfl, rfl⟩

/-- Witness for the amended C5: the catalog side needs only LOWER and TRIM. -/
theorem claim_c5_witness :
    (categorizeProduct
        (Catalog.ok [⟨3, some 7, "Lácteos", some "Leche", some " Leche Entera ", none⟩])
        simZero "Leche. Entera" none).confidence = 1
    ∧ (categorizeProduct
        (Catalog.ok [⟨3, some 7, "Lácteos", some "Leche", some " Leche Entera ", none⟩])
        simZero "Leche. Entera" none).match_type = "exact" :=
  claim_c5_theorem _ simZero "Leche. Entera" none
    ⟨3, some 7, "Lácteos", some "Leche", some " Leche Entera ", none⟩ " Leche Entera "
    (by simp) rfl (by decide)

/-- Claim C1: the price tier runs only when a price was supplied and no earlier
tier accepted; it considers only rows within ±20% of the query price, picks a
closest row by absolute difference, assigns confidence max(0.5, 1 − |Δ|/price),
and whenever that confidence is at least 0.5 the cascade (earlier tiers having
missed) returns the price tier's result. -/
theorem claim_c1 :
    (∀ (db : Catalog) (sim : String → String → ℚ) (name : String),
        (categorizeProduct db sim name none).match_type ≠ "price")
    ∧ (∀ (db : Catalog) (sim : String → String → ℚ) (name : String) (p : ℚ),
        (categorizeProduct db sim name (some p)).match_type = "price" →
          (exactMatch db (cleanProductName name)).confidence < EXACT_MATCH_THRESHOLD
          ∧ (fuzzyMatch db sim (cleanProductName name)).confidence < FUZZY_MATCH_THRESHOLD
          ∧ (keywordMatch db (cleanProductName name)).confidence < KEYWORD_MATCH_THRESHOLD)
    ∧ (∀ (rows : List CatalogRow) (name : String) (p : ℚ),
        priceMatch (Catalog.ok rows) name p ≠ emptyMatch →
        ∃ row u, (row, u) ∈ eligiblePrices (p * (1 - 2/10)) (p * (1 + 2/10)) rows
          ∧ row.unit_price = some u
          ∧ p * (1 - 2/10) ≤ u ∧ u ≤ p * (1 + 2/10)
          ∧ (∀ q ∈ eligiblePrices (p * (1 - 2/10)) (p * (1 + 2/10)) rows,
              |u - p| ≤ |q.2 - p|)
          ∧ (priceMatch (Catalog.ok rows) name p).confidence = max (5/10) (1 - |u - p| / p))
    ∧ (∀ (db : Catalog) (sim : String → String → ℚ) (name : String) (p : ℚ),
        (exactMatch db (cleanProductName name)).confidence < EXACT_MATCH_THRESHOLD →
        (fuzzyMatch db sim (cleanProductName name)).confidence < FUZZY_MATCH_THRESHOLD →
        (keywordMatch db (cleanProductName name)).confidence < KEYWORD_MATCH_THRESHOLD →
        5/10 ≤ (priceMatch db (cleanProductName name) p).confidence →
        categorizeProduct db sim name (some p) = priceMatch db (cleanProductName name) p) := by
  refine ⟨?_, ?_, ?_, ?_⟩
  · intro db sim name h
    simp only [categorizeProduct] at h
    split_ifs at h with hE hF hK
    · rcases exactMatch_shape db (cleanProductName name) with he | ⟨_, he⟩
      · rw [he] at h
        exact absurd h (by decide)
      · rw [he] at h
        exact absurd h (by decide)
    · rcases fuzzyMatch_shape db sim (cleanProductName name) with he | he
      · rw [he] at h
        exact absurd h (by decide)
      · rw [he] at h
        exact absurd h (by decide)
    · rcases keywordMatch_shape db (cleanProductName name) with he | he
      · rw [he] at h
        exact absurd h (by decide)
      · rw [he] at h
        exact absurd h (by decide)
    · exact absurd h (by simp [noMatchResult])
  · intro db sim name p h
    simp only [categorizeProduct] at h
    split_ifs at h with hE hF hK hP
    · exfalso
      rcases exactMatch_shape db (cleanProductName name) with he | ⟨_, he⟩ <;> rw [he] at h <;>
        exact absurd h (by decide)
    · exfalso
      rcases fuzzyMatch_shape db sim (cleanProductName name) with he | he <;> rw [he] at h <;>
        exact absurd h (by decide)
    · exfalso
      rcases keywordMatch_shape db (cleanProductName name) with he | he <;> rw [he] at h <;>
        exact absurd h (by decide)
    · exact ⟨not_le.mp hE, not_le.mp hF, not_le.mp hK⟩
    · exact absurd h (by simp [noMatchResult])
  · intro rows name p h
    obtain ⟨row, u, hmem, hup, hlo, hhi, hmin, _, heq⟩ := priceMatch_spec rows name p h
    refine ⟨row, u, hmem, hup, hlo, hhi, hmin, ?_⟩
    rw [heq]
  · intro db sim name p h1 h2 h3 h4
    have hne : priceMatch db (cleanProductName name) p ≠ emptyMatch := by
      intro he
      rw [he] at h4
      norm_num [emptyMatch] at h4
    cases db with
    | ioError msg => exact absurd rfl hne
    | ok rows =>
      obtain ⟨row, u, _, _, hlo, hhi, _, hp0, heq⟩ :=
        priceMatch_spec rows (cleanProductName name) p hne
      have hp_pos : 0 < p := by
        rcases lt_trichotomy p 0 with hlt | hz | hgt
        · linarith
        · exact absurd hz hp0
        · exact hgt
      have hdiv : |u - p| / p ≤ 2/10 := by
        rw [div_le_iff hp_pos]
        rw [abs_le]
        constructor <;> linarith
      have hconf : PRICE_MATCH_THRESHOLD ≤
          (priceMatch (Catalog.ok rows) (cleanProductName name) p).confidence := by
        rw [heq]
        show (7/10 : ℚ) ≤ max (5/10) (1 - |u - p| / p)
        calc (7/10 : ℚ) ≤ 1 - |u - p| / p := by linarith
          _ ≤ max (5/10) (1 - |u - p| / p) := le_max_right _ _
      exact cascadePrice (Catalog.ok rows) sim name p h1 h2 h3 hconf

/-- Witness for C1 at a concrete catalog and query where the first three tiers
miss and the price tier accepts. -/
theorem claim_c1_witness :
    (exactMatch (Catalog.ok [⟨1, none, "Cat", none, some "zzzz", some 1⟩])
        (cleanProductName "abc")).confidence < EXACT_MATCH_THRESHOLD
    ∧ (5 : ℚ)/10 ≤ (priceMatch (Catalog.ok [⟨1, none, "Cat", none, some "zzzz", some 1⟩])
        (cleanProductName "abc") 1).confidence
    ∧ categorizeProduct (Catalog.ok [⟨1, none, "Cat", none, some "zzzz", some 1⟩])
        simZero "abc" (some 1)
      = priceMatch (Catalog.ok [⟨1, none, "Cat", none, some "zzzz", some 1⟩])
        (cleanProductName "abc") 1 :=
  ⟨by with_unfolding_all decide, by with_unfolding_all decide,
   claim_c1.2.2.2 (Catalog.ok [⟨1, none, "Cat", none, some "zzzz", some 1⟩]) simZero "abc" 1
     (by with_unfolding_all decide) (by with_unfolding_all decide)
     (by with_unfolding_all decide) (by with_unfolding_all decide)⟩

/-- The matched-word count as claim C7 states it: the number of distinct
significant words of the query that occur in some selected catalog row.
Stated from the claim's words, for comparison with the code's `_keyword_match`. -/
def specMatchedWords (rows : List CatalogRow) (name : String) : Nat :=
  ((significantWords name).filter (fun w => rows.any (fun row =>
    match row.display_name with
    | some dn => strContains (lowerStr dn) w
    | none => false))).length

/-- The keyword confidence as claim C7 states it:
`min(0.9, matched_words / significant_words)`. -/
def specKeywordConfidence (rows : List CatalogRow) (name : String) : ℚ :=
  min (9/10) ((specMatchedWords rows name : ℚ) / ((significantWords name).length : ℚ))

/-- Counterexample to claim C7: for the one-product catalog "leche entera
pascual" and the query "leche entera", both significant words match, so the
claim's confidence is min(0.9, 2/2) = 0.9 and the tier should accept (0.9 ≥
0.6). The code's `COUNT(*)` counts the duplicate rows of the per-product group
instead (here 1), giving confidence min(0.9, 1/2) = 0.5, so the tier rejects
and the cascade ends in no-match. -/
theorem claim_c7_counterexample :
    specKeywordConfidence
        [⟨2, some 5, "Lácteos", some "Leche", some "leche entera pascual", some (119/100)⟩]
        "leche entera" = 9/10
    ∧ (keywordMatch
        (Catalog.ok [⟨2, some 5, "Lácteos", some "Leche", some "leche entera pascual", some (119/100)⟩])
        "leche entera").confidence = 1/2
    ∧ KEYWORD_MATCH_THRESHOLD ≤ (9 : ℚ)/10
    ∧ (categorizeProduct
        (Catalog.ok [⟨2, some 5, "Lácteos", some "Leche", some "leche entera pascual", some (119/100)⟩])
        simZero "LECHE ENTERA" none).match_type = "no_match" := by
  refine ⟨?_, ?_, ?_, ?_⟩ <;> with_unfolding_all decide

/-- Claim C7 as amended: the keyword tier tokenizes the cleaned query into
words longer than 3 characters and is skipped when there are none; it selects
catalog rows whose lowercased description contains ANY such word; it groups the
selected rows per catalog product (category, subcategory, their names and
description), ranks groups by their row count (`COUNT(*)`, i.e. duplicate
catalog rows — not matched words); the winner's confidence is
min(0.9, group_row_count / significant_words). -/
theorem claim_c7_theorem :
    ∀ (rows : List CatalogRow) (name : String),
    (significantWords name = [] → keywordMatch (Catalog.ok rows) name = emptyMatch)
    ∧ (∀ row cnt, pickTopGroup (keywordGroups (significantWords name) rows) = some (row, cnt) →
        rowMatchesAnyWord (significantWords name) row = true
        ∧ cnt = (rows.filter (rowMatchesAnyWord (significantWords name))).countP
            (fun r => decide (rowKey r = rowKey row))
        ∧ (∀ g ∈ keywordGroups (significantWords name) rows, g.2 ≤ cnt)
        ∧ keywordMatch (Catalog.ok rows) name =
            ⟨some row.categoria_id, row.subcategoria_id, some row.categoria_nombre,
             row.subcategoria_nombre,
             min (9/10) ((cnt : ℚ) / ((significantWords name).length : ℚ)), "keyword",
             some ("Coincidencia por palabras clave: " ++ toString cnt ++ " de "
                   ++ toString (significantWords name).length)⟩) := by
  intro rows name
  constructor
  · intro h
    unfold keywordMatch keywordMatchBody runTier
    by_cases hw : (splitWs name).isEmpty
    · simp [hw]
    · simp [hw, h]
  · intro row cnt htop
    have hgm := keywordGroups_mem _ _ _ _ (pickTopGroup_spec _ _ htop).1
    have hmax := (pickTopGroup_spec _ _ htop).2
    have hsig : significantWords name ≠ [] := by
      intro h0
      have hsel : rows.filter (rowMatchesAnyWord (significantWords name)) = [] := by
        rw [h0]
        rw [List.filter_eq_nil]
        intro a _
        unfold rowMatchesAnyWord
        cases a.display_name <;> simp
      have hgrp : keywordGroups (significantWords name) rows = [] := by
        unfold keywordGroups
        rw [hsel]
        rfl
      rw [hgrp] at htop
      simp [pickTopGroup] at htop
    have hw : (splitWs name).isEmpty = false := by
      rcases hsp : splitWs name with _ | ⟨w, ws⟩
      · refine absurd ?_ hsig
        unfold significantWords
        rw [hsp]
        rfl
      · rfl
    have hs : (significantWords name).isEmpty = false := by
      rcases hsp : significantWords name with _ | ⟨w, ws⟩
      · exact absurd hsp hsig
      · rfl
    refine ⟨hgm.1, hgm.2, fun g hg => hmax g hg, ?_⟩
    unfold keywordMatch keywordMatchBody runTier
    simp [hw, hs, htop]

/-- Witness for the amended C7: concrete catalog and queries exercising both
the skip branch and the accepting branch. -/
theorem claim_c7_witness :
    keywordMatch (Catalog.ok [⟨2, some 5, "Lácteos", some "Leche", some "leche entera pascual", some (119/100)⟩])
        "pan uht" = emptyMatch
    ∧ keywordMatch (Catalog.ok [⟨2, some 5, "Lácteos", some "Leche", some "leche entera pascual", some (119/100)⟩])
        "leche entera" =
        ⟨some 2, some 5, some "Lácteos", some "Leche", min (9/10) ((1 : ℚ) / (2 : ℚ)),
         "keyword", some "Coincidencia por palabras clave: 1 de 2"⟩ := by
  constructor
  · exact (claim_c7_theorem
      [⟨2, some 5, "Lácteos", some "Leche", some "leche entera pascual", some (119/100)⟩]
      "pan uht").1 (by decide)
  · have h := (claim_c7_theorem
      [⟨2, some 5, "Lácteos", some "Leche", some "leche entera pascual", some (119/100)⟩]
      "leche entera").2
      ⟨2, some 5, "Lácteos", some "Leche", some "leche entera pascual", some (119/100)⟩ 1
      (by with_unfolding_all decide)
    exact h.2.2.2.trans (by with_unfolding_all decide)

/-! ## Lemmas about the validator -/

lemma if_singleton_eq_nil {c : Prop} [Decidable c] (x : String) :
    (if c then [x] else []) = [] ↔ ¬ c := by
  split_ifs with h <;> simp [h]

lemma if_nil_else_singleton_eq_nil {c : Prop} [Decidable c] (x : String) :
    (if c then [] else [x]) = [] ↔ c := by
  split_ifs with h <;> simp [h]

lemma productErrorsAux_eq_nil (l : List Product) :
    ∀ i, productErrorsAux i l = [] ↔ ∀ p ∈ l, ¬ p.description = "" ∧ ¬ p.total_price ≤ 0 := by
  induction l with
  | nil =>
    intro i
    simp [productErrorsAux]
  | cons p rest ih =>
    intro i
    simp only [productErrorsAux, List.append_eq_nil, if_singleton_eq_nil, ih (i + 1),
      List.mem_cons]
    constructor
    · rintro ⟨⟨h1, h2⟩, h3⟩ q hq
      rcases hq with rfl | hq
      · exact ⟨h1, h2⟩
      · exact h3 q hq
    · intro h
      exact ⟨⟨(h p (Or.inl rfl)).1, (h p (Or.inl rfl)).2⟩, fun q hq => h q (Or.inr hq)⟩

/-- The validator reports the total reason whenever the total is not positive
(regardless of the other fields). -/
lemma totalReason_mem (t : TicketData) (h : t.total ≤ 0) :
    "Total inválido o cero" ∈ (validateTicket t).2 := by
  simp [validateTicket, h]

/-! ## Claim theorems: ticket validator and constructor -/

/-- Counterexample to claim C3: a constructible ticket whose invoice number is
the blank string " " (non-empty but whitespace-only) passes every validator
check, so the validator accepts although the claim requires a non-blank invoice
number for validity. -/
theorem claim_c3_counterexample :
    mkTicketData ⟨"MERCADONA, S.A.", "A-46103834", "", "", "", "", some 1, "", "", " ",
        [⟨1, "PAN", none, 1, none⟩], 1, "", []⟩
      = Except.ok ⟨"MERCADONA, S.A.", "A-46103834", "", "", "", "", some 1, "", "", " ",
        [⟨1, "PAN", none, 1, none⟩], 1, "", []⟩
    ∧ validateTicket ⟨"MERCADONA, S.A.", "A-46103834", "", "", "", "", some 1, "", "", " ",
        [⟨1, "PAN", none, 1, none⟩], 1, "", []⟩ = (true, [])
    ∧ pyStrip " " = "" :=
  ⟨by with_unfolding_all rfl, by with_unfolding_all decide, rfl⟩

/-- Claim C3 as amended: the validator is a total function returning (is_valid,
reasons); is_valid holds iff the total is positive, some line item is present,
the date is present, the invoice number is non-EMPTY (not non-blank), the item
sum is within the 0.5 tolerance of the total, and every item has a non-EMPTY
description and positive total price; is_valid holds iff no reason was
accumulated; and each failing check contributes its reason without
short-circuiting the others. -/
theorem claim_c3_theorem (t : TicketData) :
    ((validateTicket t).1 = true ↔
      (0 < t.total ∧ t.products ≠ [] ∧ t.date ≠ none ∧ t.invoice_number ≠ ""
        ∧ |productsTotal t - t.total| ≤ 1/2
        ∧ ∀ p ∈ t.products, p.description ≠ "" ∧ 0 < p.total_price))
    ∧ ((validateTicket t).1 = true ↔ (validateTicket t).2 = [])
    ∧ (t.total ≤ 0 → "Total inválido o cero" ∈ (validateTicket t).2)
    ∧ (t.products = [] → "Sin productos" ∈ (validateTicket t).2)
    ∧ (t.date = none → "Sin fecha" ∈ (validateTicket t).2)
    ∧ (t.invoice_number = "" → "Sin número de factura" ∈ (validateTicket t).2)
    ∧ (¬ |productsTotal t - t.total| ≤ 1/2 →
        mismatchMsg (productsTotal t) t.total ∈ (validateTicket t).2) := by
  have hpair : (validateTicket t).1 = true ↔ (validateTicket t).2 = [] := by
    simp [validateTicket]
  have herr : (validateTicket t).2 = [] ↔
      (0 < t.total ∧ t.products ≠ [] ∧ t.date ≠ none ∧ t.invoice_number ≠ ""
        ∧ |productsTotal t - t.total| ≤ 1/2
        ∧ ∀ p ∈ t.products, p.description ≠ "" ∧ 0 < p.total_price) := by
    show ((if t.total = 0 ∨ t.total ≤ 0 then ["Total inválido o cero"] else []) ++
        (if t.products = [] ∨ t.products.length = 0 then ["Sin productos"] else []) ++
        (if t.date = none then ["Sin fecha"] else []) ++
        (if t.invoice_number = "" then ["Sin número de factura"] else []) ++
        (if |productsTotal t - t.total| ≤ 1/2 then []
         else [mismatchMsg (productsTotal t) t.total]) ++
        productErrorsAux 0 t.products) = [] ↔ _
    simp only [List.append_eq_nil, if_singleton_eq_nil, if_nil_else_singleton_eq_nil,
      productErrorsAux_eq_nil]
    constructor
    · rintro ⟨⟨⟨⟨⟨h1, h2⟩, h3⟩, h4⟩, h5⟩, h6⟩
      exact ⟨not_le.mp (not_or.mp h1).2, (not_or.mp h2).1, h3, h4, h5,
        fun p hp => ⟨(h6 p hp).1, not_le.mp (h6 p hp).2⟩⟩
    · rintro ⟨h1, h2, h3, h4, h5, h6⟩
      refine ⟨⟨⟨⟨⟨not_or.mpr ⟨ne_of_gt h1, not_le.mpr h1⟩,
        not_or.mpr ⟨h2, fun hl => h2 (List.length_eq_zero.mp hl)⟩⟩, h3⟩, h4⟩, h5⟩,
        fun p hp => ⟨(h6 p hp).1, not_le.mpr (h6 p hp).2⟩⟩
  refine ⟨hpair.trans herr, hpair, fun h => totalReason_mem t h, ?_, ?_, ?_, ?_⟩
  · intro h
    simp [validateTicket, h]
  · intro h
    simp [validateTicket, h]
  · intro h
    simp [validateTicket, h]
  · intro h
    simp [validateTicket, h]
    exact Or.inr (Or.inr (Or.inr (Or.inr (Or.inl (by linarith [not_le.mp h])))))

/-- Witness for the amended C3 at a ticket failing five checks at once. -/
theorem claim_c3_witness :
    ("Total inválido o cero"
        ∈ (validateTicket ⟨"", "", "", "", "", "", none, "", "", "", [], -1, "", []⟩).2)
    ∧ ("Sin productos"
        ∈ (validateTicket ⟨"", "", "", "", "", "", none, "", "", "", [], -1, "", []⟩).2)
    ∧ ("Sin fecha"
        ∈ (validateTicket ⟨"", "", "", "", "", "", none, "", "", "", [], -1, "", []⟩).2)
    ∧ ("Sin número de factura"
        ∈ (validateTicket ⟨"", "", "", "", "", "", none, "", "", "", [], -1, "", []⟩).2)
    ∧ (mismatchMsg
          (productsTotal ⟨"", "", "", "", "", "", none, "", "", "", [], -1, "", []⟩)
          (-1)
        ∈ (validateTicket ⟨"", "", "", "", "", "", none, "", "", "", [], -1, "", []⟩).2) := by
  have h := claim_c3_theorem ⟨"", "", "", "", "", "", none, "", "", "", [], -1, "", []⟩
  exact ⟨h.2.2.1 (by norm_num), h.2.2.2.1 rfl, h.2.2.2.2.1 rfl, h.2.2.2.2.2.1 rfl,
    h.2.2.2.2.2.2 (by with_unfolding_all decide)⟩

/-- Counterexample to claim C9: constructing a TicketData with a non-empty
product list and total 0 raises ValueError in `__post_init__` — the rule is a
hard constructor rule, not merely advisory. -/
theorem claim_c9_counterexample :
    mkTicketData ⟨"", "", "", "", "", "", some 1, "", "", "1-2-3",
        [⟨1, "PAN", none, 1, none⟩], 0, "", []⟩
      = Except.error "El total debe ser positivo cuando hay productos" := by
  with_unfolding_all rfl

/-- Claim C9 as amended: Ticket construction with a non-empty product list and
a non-positive total fails at construction with the constructor's ValueError;
the Validator additionally reports a total reason for such a ticket value. -/
theorem claim_c9_theorem (t : TicketData) (h1 : t.products ≠ []) (h2 : t.total ≤ 0) :
    mkTicketData t = Except.error "El total debe ser positivo cuando hay productos"
    ∧ "Total inválido o cero" ∈ (validateTicket t).2 := by
  constructor
  · unfold mkTicketData
    rw [if_pos ⟨h2, h1⟩]
  · exact totalReason_mem t h2

/-- Witness for the amended C9 at a concrete one-product, total-zero ticket. -/
theorem claim_c9_witness :
    mkTicketData ⟨"TIENDA", "A-1", "", "", "", "", some 1, "", "", "9-9-9",
        [⟨2, "LECHE", none, 3, none⟩], 0, "", []⟩
      = Except.error "El total debe ser positivo cuando hay productos"
    ∧ "Total inválido o cero"
        ∈ (validateTicket ⟨"TIENDA", "A-1", "", "", "", "", some 1, "", "", "9-9-9",
            [⟨2, "LECHE", none, 3, none⟩], 0, "", []⟩).2 :=
  claim_c9_theorem ⟨"TIENDA", "A-1", "", "", "", "", some 1, "", "", "9-9-9",
      [⟨2, "LECHE", none, 3, none⟩], 0, "", []⟩
    (by decide) (by norm_num)

/-! ## Claim theorems: invoice-number fallback (parser) -/

/-- Evaluation for claim C4. First receipt: no invoice pattern before the
product table, one dash-digit line after it — the extractor still takes
"999-888-777" from the post-table line, because `_parse_store_info` runs before
`_parse_products` and its `if not ticket.products` guard is always vacuously
true. Second receipt: the labelled "FACTURA SIMPLIFICADA" line wins over the
later dash-digit line, as the claim's precedence example states. -/
theorem claim_c4_eval :
    parseInvoiceNumber ["Descripción P. Unit Importe", "1 PAN 1,00", "TOTAL (€) 1,00",
        "999-888-777"] = "999-888-777"
    ∧ productSpanLines ["Descripción P. Unit Importe", "1 PAN 1,00", "TOTAL (€) 1,00",
        "999-888-777"] = ["1 PAN 1,00"]
    ∧ parseInvoiceNumber ["FACTURA SIMPLIFICADA: 001-002-003", "Descripción P. Unit Importe",
        "1 PAN 1,00", "TOTAL (€) 1,00", "999-888-777"] = "001-002-003" :=
  ⟨rfl, rfl, rfl⟩

/-! ## Lemmas about the product-line parser -/

lemma parseProductsAux_filterMap (lines : List String) :
    ∀ b, parseProductsAux b lines = (productSpanLinesAux b lines).filterMap parseProductLine := by
  induction lines with
  | nil => intro b; rfl
  | cons l ls ih =>
    intro b
    simp only [parseProductsAux, productSpanLinesAux]
    split_ifs with h1 h2 h3
    · exact ih true
    · exact ih false
    · exact ih b
    · rw [List.filterMap_cons]
      cases hp : parseProductLine (cleanText l) with
      | none => simp [hp, ih b]
      | some p => simp [hp, ih b]

lemma firstPriceIdx_isSome (l : List String) (h : l.any isCommaDecimal = true) :
    ∃ j, firstPriceIdx l = some j := by
  induction l with
  | nil => simp at h
  | cons t rest ih =>
    by_cases ht : isCommaDecimal t
    · exact ⟨0, by simp [firstPriceIdx, ht]⟩
    · simp only [List.any_cons, ht, Bool.false_or] at h
      obtain ⟨j, hj⟩ := ih h
      exact ⟨j + 1, by simp [firstPriceIdx, ht, hj]⟩

lemma firstPriceIdx_take (l : List String) :
    ∀ j, firstPriceIdx l = some j →
      l.take j = l.takeWhile (fun t => !isCommaDecimal t) := by
  induction l with
  | nil => intro j hj; simp [firstPriceIdx] at hj
  | cons t rest ih =>
    intro j hj
    by_cases ht : isCommaDecimal t
    · simp only [firstPriceIdx, ht, if_true] at hj
      injection hj with hj
      subst hj
      simp [List.takeWhile_cons, ht]
    · simp only [firstPriceIdx, ht, if_false] at hj
      rcases hrest : firstPriceIdx rest with _ | j0
      · rw [hrest] at hj; simp at hj
      · rw [hrest] at hj
        simp only [Option.map_some'] at hj
        injection hj with hj
        subst hj
        simp [List.takeWhile_cons, ht, List.take_succ_cons, ih j0 hrest]

lemma splitWsAux_tokens (cl : List Char) :
    ∀ acc, (∀ c ∈ acc, ¬ c.isWhitespace = true) →
      ∀ t ∈ splitWsAux acc cl, t.data ≠ [] ∧ ∀ c ∈ t.data, ¬ c.isWhitespace = true := by
  induction cl with
  | nil =>
    intro acc hacc t ht
    simp only [splitWsAux] at ht
    by_cases hae : acc.isEmpty
    · simp [hae] at ht
    · rw [if_neg hae] at ht
      rcases List.mem_singleton.mp ht with rfl
      refine ⟨?_, ?_⟩
      · show acc.reverse ≠ []
        simp only [ne_eq, List.reverse_eq_nil_iff]
        intro h0
        rw [h0] at hae
        exact hae rfl
      · intro c hc
        exact hacc c (List.mem_reverse.mp hc)
  | cons c rest ih =>
    intro acc hacc t ht
    simp only [splitWsAux] at ht
    by_cases hw : c.isWhitespace
    · rw [if_pos hw] at ht
      by_cases hae : acc.isEmpty
      · rw [if_pos hae] at ht
        exact ih [] (by simp) t ht
      · rw [if_neg hae] at ht
        rcases List.mem_cons.mp ht with rfl | ht
        · refine ⟨?_, ?_⟩
          · show acc.reverse ≠ []
            simp only [ne_eq, List.reverse_eq_nil_iff]
            intro h0
            rw [h0] at hae
            exact hae rfl
          · intro x hx
            exact hacc x (List.mem_reverse.mp hx)
        · exact ih [] (by simp) t ht
    · rw [if_neg hw] at ht
      refine ih (c :: acc) ?_ t ht
      intro x hx
      rcases List.mem_cons.mp hx with rfl | hx
      · exact fun h => hw h
      · exact hacc x hx

/-- Every token produced by `str.split()` is nonempty and free of whitespace. -/
lemma splitWs_tokens (s : String) :
    ∀ t ∈ splitWs s, t.data ≠ [] ∧ ∀ c ∈ t.data, ¬ c.isWhitespace = true :=
  splitWsAux_tokens s.data [] (by simp)

lemma joinSpace_cons_data (a : String) (rest : List String) :
    ∃ suffix, (joinSpace (a :: rest)).data = a.data ++ suffix := by
  cases rest with
  | nil => exact ⟨[], by simp [joinSpace]⟩
  | cons b r =>
    refine ⟨(" " ++ joinSpace (b :: r)).data, ?_⟩
    show (a ++ " " ++ joinSpace (b :: r)).data = _
    rw [String.data_append, String.data_append, String.data_append, List.append_assoc]

lemma pyStripData_eq_nil (l : List Char) :
    pyStripData l = [] ↔ ∀ c ∈ l, c.isWhitespace = true := by
  unfold pyStripData
  rw [List.reverse_eq_nil_iff, List.dropWhile_eq_nil_iff]
  constructor
  · intro h c hc
    have hsplit := List.takeWhile_append_dropWhile (p := fun c => c.isWhitespace) (l := l)
    rw [← hsplit] at hc
    rcases List.mem_append.mp hc with hc | hc
    · exact List.mem_takeWhile_imp hc
    · exact h c (List.mem_reverse.mpr hc)
  · intro h c hc
    exact h c ((List.dropWhile_sublist _).subset (List.mem_reverse.mp hc))

lemma pyInt_some_not_comma (s : String) (q : Int) (h : pyInt s = some q) :
    isCommaDecimal s = false := by
  unfold pyInt at h
  unfold isCommaDecimal
  rcases hd : s.data with _ | ⟨c, rest⟩
  · rw [hd] at h
    cases h
  · rw [hd] at h
    dsimp only [] at h
    dsimp only []
    by_cases hplus : c = '+'
    · subst hplus
      simp [List.takeWhile_cons, show Char.isDigit '+' = false from rfl]
    · by_cases hminus : c = '-'
      · subst hminus
        simp [List.takeWhile_cons, show Char.isDigit '-' = false from rfl]
      · rw [if_neg hplus, if_neg hminus] at h
        by_cases hval : validUnderscoreDigits (c :: rest)
        · have hall : (c :: rest).all (fun x => x.isDigit || x = '_') = true := by
            unfold validUnderscoreDigits at hval
            simp only [Bool.and_eq_true] at hval
            exact hval.1.2
          by_cases hde : ((c :: rest).takeWhile Char.isDigit).isEmpty
          · simp [hde]
          · rcases hdrop : (c :: rest).drop ((c :: rest).takeWhile Char.isDigit).length
              with _ | ⟨c2, tail⟩
            · simp [hdrop]
            · have hc2mem : c2 ∈ (c :: rest) :=
                List.mem_of_mem_drop (by rw [hdrop]; exact List.mem_cons_self _ _)
            -- a valid int literal has no comma anywhere, so the head after the
            -- digit run cannot be one
              have hc2 : (c2.isDigit || c2 = '_') = true := List.all_eq_true.mp hall c2 hc2mem
              have hc2ne : (c2 = ',') = False := by
                by_cases h0 : c2 = ','
                · subst h0
                  simp at hc2
                · simp [h0]
              simp [hdrop, hc2ne]
        · rw [if_neg hval] at h
          cases h

/-! ## Claim theorems: product-table parsing -/

/-- The line-item invariants exactly as claim C6 enumerates them: first token a
positive integer quantity, at least one comma-decimal price token, non-empty
description (tokens strictly between the quantity and the first price).
Stated from the claim's words, for comparison with `parseProductLine`. -/
def claimC6LineOK (line : String) : Bool :=
  match splitWs line with
  | [] => false
  | tok :: rest =>
    (match pyInt tok with
     | some q => decide (0 < q)
     | none => false) &&
    rest.any isCommaDecimal &&
    !(rest.takeWhile (fun t => !isCommaDecimal t)).isEmpty

/-- The total price a product line would receive: the second price token's value
when exactly two are present, otherwise the first's. -/
def chosenTotalPrice (priceToks : List String) : ℚ :=
  match priceToks.map commaToRat with
  | [u, t] => t
  | t :: _ => t
  | [] => 0

/-- The invariants claim C6 needs once amended: the three conditions the claim
lists plus a positive resulting total price. -/
def amendedLineOK (line : String) : Bool :=
  match splitWs line with
  | [] => false
  | tok :: rest =>
    (match pyInt tok with
     | some q => decide (0 < q)
     | none => false) &&
    rest.any isCommaDecimal &&
    !(rest.takeWhile (fun t => !isCommaDecimal t)).isEmpty &&
    decide (0 < chosenTotalPrice (rest.filter isCommaDecimal))

/-- Counterexample to claim C6: the line "1 PAN 0,00" satisfies all three
invariants the claim lists (quantity 1, price token "0,00", description "PAN"),
yet the parser drops it, because the Product constructor also requires a
positive total price; so the kept lines are not exactly those satisfying the
claim's list. -/
theorem claim_c6_counterexample :
    claimC6LineOK "1 PAN 0,00" = true
    ∧ parseProductLine "1 PAN 0,00" = none
    ∧ parseProducts ["Descripción P. Unit Importe", "1 PAN 0,00", "TOTAL (€) 1,00"] = [] :=
  ⟨rfl, by with_unfolding_all rfl, by with_unfolding_all rfl⟩

/-- Keptness of a would-be line item whose description is assembled from
whitespace-free nonempty tokens: the caught Product constructor succeeds
exactly when the quantity is positive, the description token list is nonempty,
and the total price is positive. -/
lemma mkProduct_line_isSome (q : Int) (dp : List String)
    (hdp : ∀ t ∈ dp, t.data ≠ [] ∧ ∀ c ∈ t.data, ¬ c.isWhitespace = true)
    (u : Option ℚ) (T : ℚ) (w : Option String) :
    (match mkProduct ⟨q, joinSpace dp, u, T, w⟩ with
      | .ok p => some p
      | .error _ => none).isSome = (decide (0 < q) && !dp.isEmpty && decide (0 < T)) := by
  unfold mkProduct
  dsimp only []
  by_cases h1 : q ≤ 0
  · rw [if_pos h1]
    simp [not_lt.mpr h1]
  · rw [if_neg h1]
    have hq' : 0 < q := not_le.mp h1
    by_cases h2 : T ≤ 0
    · rw [if_pos h2]
      simp [not_lt.mpr h2]
    · rw [if_neg h2]
      have hT' : 0 < T := not_le.mp h2
      cases dp with
      | nil =>
        rw [if_pos (show joinSpace [] = "" ∨ pyStrip (joinSpace []) = "" from Or.inl rfl)]
        simp
      | cons d0 dps =>
        obtain ⟨hne, hnw⟩ := hdp d0 (List.mem_cons_self _ _)
        obtain ⟨suffix, hjs⟩ := joinSpace_cons_data d0 dps
        have hdesc1 : joinSpace (d0 :: dps) ≠ "" := by
          intro h0
          have hd' := congrArg String.data h0
          rw [hjs] at hd'
          exact hne (List.append_eq_nil.mp hd').1
        have hdesc2 : pyStrip (joinSpace (d0 :: dps)) ≠ "" := by
          intro h0
          have hdata : ∀ c ∈ (joinSpace (d0 :: dps)).data, c.isWhitespace = true := by
            rw [← pyStripData_eq_nil]
            exact congrArg String.data h0
          rcases hd0d : d0.data with _ | ⟨c0, cr⟩
          · exact hne hd0d
          · have hc0 : c0 ∈ (joinSpace (d0 :: dps)).data := by
              rw [hjs, hd0d]
              exact List.mem_append.mpr (Or.inl (List.mem_cons_self _ _))
            exact (hnw c0 (by rw [hd0d]; exact List.mem_cons_self _ _)) (hdata c0 hc0)
        rw [if_neg (by push_neg; exact ⟨hdesc1, hdesc2⟩)]
        simp [hq', hT']

/-- Claim C6 as amended: for every receipt text, the parsed product list is
exactly the in-order subset of the cleaned non-empty lines inside the
product-table span on which the line parser succeeds (one bad line never aborts
the parse), and the line parser succeeds exactly on the lines satisfying the
claim's invariants plus a positive resulting total price (the second price
token's value when exactly two are present, otherwise the first's). -/
theorem claim_c6_theorem :
    (∀ text, parseProducts (linesOf text)
        = (productSpanLines (linesOf text)).filterMap parseProductLine)
    ∧ (∀ l, (parseProductLine l).isSome = amendedLineOK l) := by
  constructor
  · intro text
    exact parseProductsAux_filterMap (linesOf text) false
  · intro l
    unfold parseProductLine amendedLineOK
    dsimp only []
    rcases hsp : splitWs l with _ | ⟨tok, rest⟩
    · simp
    · rcases rest with _ | ⟨t2, rest2⟩
      · simp
      · have hlen : ¬ (tok :: t2 :: rest2).length < 2 := by
          simp [List.length_cons]
        rw [if_neg hlen]
        rcases hq : pyInt tok with _ | q
        · simp [hq]
        · simp only [List.headD_cons, hq]
          have hnc : isCommaDecimal tok = false := pyInt_some_not_comma tok q hq
          have hfil : (tok :: t2 :: rest2).filter isCommaDecimal
              = (t2 :: rest2).filter isCommaDecimal := by
            simp [List.filter_cons, hnc]
          have hfpi : firstPriceIdx (tok :: t2 :: rest2)
              = (firstPriceIdx (t2 :: rest2)).map (· + 1) := by
            simp [firstPriceIdx, hnc]
          rw [hfil, hfpi]
          by_cases hany : (t2 :: rest2).any isCommaDecimal
          · obtain ⟨j, hj⟩ := firstPriceIdx_isSome _ hany
            have hfne : (t2 :: rest2).filter isCommaDecimal ≠ [] := by
              intro h0
              rw [List.filter_eq_nil] at h0
              obtain ⟨x, hx, hpx⟩ := List.any_eq_true.mp hany
              exact h0 x hx hpx
            have hdp : ∀ t ∈ (t2 :: rest2).takeWhile (fun t => !isCommaDecimal t),
                t.data ≠ [] ∧ ∀ c ∈ t.data, ¬ c.isWhitespace = true := by
              intro t ht
              refine splitWs_tokens l t ?_
              rw [hsp]
              exact List.mem_cons_of_mem _ ((List.takeWhile_sublist _).subset ht)
            rw [hj]
            simp only [Option.map_some']
            rw [List.take_succ_cons]
            simp only [List.drop_succ_cons, List.drop_zero]
            rw [firstPriceIdx_take _ j hj]
            rcases hpl : ((t2 :: rest2).filter isCommaDecimal).map commaToRat
              with _ | ⟨p1, _ | ⟨p2, _ | ⟨p3, pr⟩⟩⟩
            · exact absurd (List.map_eq_nil.mp hpl) hfne
            · have hct : chosenTotalPrice ((t2 :: rest2).filter isCommaDecimal) = p1 := by
                unfold chosenTotalPrice
                rw [hpl]
              rw [hany, hct]
              simp only [Bool.true_and, Bool.and_true]
              exact mkProduct_line_isSome q _ hdp none p1 (findWeight l)
            · have hct : chosenTotalPrice ((t2 :: rest2).filter isCommaDecimal) = p2 := by
                unfold chosenTotalPrice
                rw [hpl]
              rw [hany, hct]
              simp only [Bool.true_and, Bool.and_true]
              exact mkProduct_line_isSome q _ hdp (some p1) p2 (findWeight l)
            · have hct : chosenTotalPrice ((t2 :: rest2).filter isCommaDecimal) = p1 := by
                unfold chosenTotalPrice
                rw [hpl]
              rw [hany, hct]
              simp only [Bool.true_and, Bool.and_true]
              exact mkProduct_line_isSome q _ hdp none p1 (findWeight l)
          · have hany' : (t2 :: rest2).any isCommaDecimal = false :=
              Bool.eq_false_iff.mpr hany
            have hfe : (t2 :: rest2).filter isCommaDecimal = [] := by
              rw [List.filter_eq_nil]
              intro a ha hpa
              exact hany (List.any_eq_true.mpr ⟨a, ha, hpa⟩)
            rw [hfe, hany']
            simp

end Mercagasto
